import Mathlib

/-!
Shallow embedding of the expense-report review and export core of the
EXPENSES repository:

* `app/services/expense_workflow.py` — `parse_line_review_form_data`,
  `apply_line_review_decisions`, `format_pending_reports_csv`,
  `dispatch_csv_via_sftp`;
* `app/expenses.py` — the `dispatch_pending_uploads` route body.

Python objects are modelled as immutable records; in-place mutation is
modelled by returning the updated records.  Monetary amounts are exact
2-decimal `Decimal` values in the source and are represented here as an
integer number of cents.  Python's `str(int)` rendering and
`date.isoformat()` are embedded as executable decimal-digit functions.
The CSV payload is modelled at row/field granularity: a list of rows,
each row a list of field strings, with the header row first, exactly as
`csv.writer.writerow` receives them.
-/

namespace Expenses

/-- Decimal digit characters of `n`, most significant first, computed with
explicit fuel so the function is structurally recursive (the fuel `n + 1`
always suffices).  This embeds Python's `str` rendering of a nonnegative
integer. -/
def natDigitsFuel : Nat → Nat → List Char
  | 0, _ => []
  | fuel + 1, n =>
    if n < 10 then [Nat.digitChar n]
    else natDigitsFuel fuel (n / 10) ++ [Nat.digitChar (n % 10)]

/-- Decimal digit characters of `n`, most significant first. -/
def natDigits (n : Nat) : List Char := natDigitsFuel (n + 1) n

/-- Python `str` of a natural number. -/
def natStr (n : Nat) : String := String.mk (natDigits n)

/-- Python `str` of an `int` (minus sign for negatives). -/
def intStr (i : Int) : String :=
  String.mk ((if i < 0 then ['-'] else []) ++ natDigits i.natAbs)

/-- Digits of `n` left-padded with zeros to width `w`, as done by the
`%02d`/`%04d`-style padding inside `date.isoformat()` and `f"{x:.2f}"`. -/
def zpadChars (w n : Nat) : List Char :=
  List.replicate (w - (natDigits n).length) '0' ++ natDigits n

/-- A calendar date as stored in the `date` column of an expense line. -/
structure CalDate where
  year : Nat
  month : Nat
  day : Nat
deriving DecidableEq, Repr

/-- Python `date.isoformat()`: `YYYY-MM-DD` with zero padding. -/
def CalDate.isoformat (d : CalDate) : String :=
  String.mk (zpadChars 4 d.year ++ '-' :: zpadChars 2 d.month ++ '-' :: zpadChars 2 d.day)

/-- Python `f"{amount:.2f}"` for an exact 2-decimal `Decimal` amount held
as a number of cents. -/
def formatAmount (cents : Int) : String :=
  String.mk ((if cents < 0 then ['-'] else [])
    ++ natDigits (cents.natAbs / 100) ++ '.' :: zpadChars 2 (cents.natAbs % 100))

/-- `app.models.ExpenseLine` restricted to the fields the core reads and
writes: export fields plus the line-level review fields `status` and
`rejection_comment` used by `apply_line_review_decisions`. -/
structure ExpenseLine where
  id : Int
  date : CalDate
  expense_type : String
  gl_account : String
  vendor : String
  description : Option String
  amount : Int
  receipt_url : Option String
  status : String
  rejection_comment : Option String
deriving DecidableEq, Repr

/-- `app.models.ExpenseReport` restricted to the fields the core reads and
writes.  `employee_email`/`supervisor_email` model
`getattr(report.employee, "email", "")`, `none` standing for a missing
related user. -/
structure ExpenseReport where
  id : Int
  employee_email : Option String
  supervisor_email : Option String
  lines : List ExpenseLine
  status : String
  rejection_comment : Option String
deriving DecidableEq, Repr

/-- `app.services.expense_workflow.ExpenseLineDecision`. -/
structure ExpenseLineDecision where
  line_id : Int
  status : String
  comment : String
deriving DecidableEq, Repr

/-- Python `str.strip()`: drop leading and trailing whitespace. -/
def pyStrip (s : String) : String :=
  String.mk (((s.data.dropWhile Char.isWhitespace).reverse.dropWhile Char.isWhitespace).reverse)

/-- Python `str.lower()` restricted to ASCII case mapping. -/
def pyLower (s : String) : String :=
  String.mk (s.data.map Char.toLower)

/-- Message raised when a line has no decision or an unrecognized action
(`"Select approve or reject for each expense line."`). -/
def selectMsg : String := "Select approve or reject for each expense line."

/-- Message raised for a reject decision with an empty comment. -/
def commentMsg : String := "Add a rejection comment for each rejected expense line."

/-- The fixed report-level rejection comment written when any line is
rejected. -/
def draftNote : String :=
  "One or more expense lines were rejected. Review line comments and resubmit."

/-- Flash message for the rejected-lines outcome. -/
def draftMsg : String := "Report updated with rejected lines and returned to draft status."

/-- Flash message for the all-approved outcome. -/
def approveMsg : String := "Report approved and queued for NetSuite upload."

/-- `decision_map = {decision.line_id: decision for decision in decisions}`
with `decision_map.get(lid)`: the last decision for a given id wins, as in
a Python dict comprehension. -/
def decisionMapGet (decisions : List ExpenseLineDecision) (lid : Int) :
    Option ExpenseLineDecision :=
  decisions.reverse.find? (fun d => d.line_id == lid)

/-- `parse_line_review_form_data`: one decision per report line, in report
line order, reading `line_status_<id>` / `line_comment_<id>` from the form
(`form_data.get(key) or ""` then `.strip()`). -/
def parse_line_review_form_data (report : ExpenseReport)
    (form : String → Option String) : List ExpenseLineDecision :=
  report.lines.map (fun line =>
    { line_id := line.id
      status := pyStrip ((form ("line_status_" ++ intStr line.id)).getD "")
      comment := pyStrip ((form ("line_comment_" ++ intStr line.id)).getD "") })

/-- The ids of report lines having no decision — mirrors the
`missing_lines` list comprehension in `apply_line_review_decisions`. -/
def missingLineIds (report : ExpenseReport)
    (decisions : List ExpenseLineDecision) : List Int :=
  (report.lines.filter (fun l => (decisionMapGet decisions l.id).isNone)).map (fun l => l.id)

/-- The per-line review loop of `apply_line_review_decisions`.  Returns the
line list as it stands when the loop finishes or raises (already-processed
prefix mutated, rest untouched), the `any_rejected` flag, and the raised
`ValueError` message if any. -/
def reviewLoop (dmap : Int → Option ExpenseLineDecision) :
    List ExpenseLine → List ExpenseLine × Bool × Option String
  | [] => ([], false, none)
  | line :: rest =>
    match dmap line.id with
    | none => (line :: rest, false, some selectMsg)
    | some d =>
      let ns := pyLower (pyStrip d.status)
      if ns ≠ "approve" ∧ ns ≠ "reject" then (line :: rest, false, some selectMsg)
      else if ns = "reject" then
        if d.comment = "" then (line :: rest, false, some commentMsg)
        else
          let r := reviewLoop dmap rest
          ({ line with status := "Rejected", rejection_comment := some d.comment } :: r.1,
            true, r.2.2)
      else
        let r := reviewLoop dmap rest
        ({ line with status := "Approved", rejection_comment := none } :: r.1,
          r.2.1, r.2.2)

/-- Result of `apply_line_review_decisions`: either a raised `ValueError`
(with the in-memory report as left behind by the partial loop) or the
returned `(message, category)` pair together with the mutated report. -/
inductive ApplyResult
  | failure (msg : String) (report : ExpenseReport)
  | success (report : ExpenseReport) (message : String) (category : String)
deriving DecidableEq, Repr

/-- The report state carried by an `ApplyResult`. -/
def ApplyResult.report : ApplyResult → ExpenseReport
  | .failure _ r => r
  | .success r _ _ => r

/-- The raised message, when the call failed. -/
def ApplyResult.errorMsg : ApplyResult → Option String
  | .failure m _ => some m
  | .success _ _ _ => none

/-- `apply_line_review_decisions(report, decisions=...)`. -/
def apply_line_review_decisions (report : ExpenseReport)
    (decisions : List ExpenseLineDecision) : ApplyResult :=
  let dmap := decisionMapGet decisions
  if missingLineIds report decisions ≠ [] then .failure selectMsg report
  else
    let r := reviewLoop dmap report.lines
    match r.2.2 with
    | some msg => .failure msg { report with lines := r.1 }
    | none =>
      if r.2.1 then
        .success { report with
                   lines := r.1
                   status := "Draft"
                   rejection_comment := some draftNote } draftMsg "info"
      else
        .success { report with
                   lines := r.1
                   status := "Pending Upload"
                   rejection_comment := none } approveMsg "success"

/-- The fixed CSV header row of `format_pending_reports_csv`. -/
def csvHeader : List String :=
  ["report_id", "employee_email", "supervisor_email", "expense_date",
   "expense_type", "gl_account", "vendor", "description", "amount", "receipt_url"]

/-- The fields written for one line of one report by
`format_pending_reports_csv`. -/
def csvLineRow (report : ExpenseReport) (line : ExpenseLine) : List String :=
  [intStr report.id,
   report.employee_email.getD "",
   report.supervisor_email.getD "",
   line.date.isoformat,
   line.expense_type,
   line.gl_account,
   line.vendor,
   line.description.getD "",
   formatAmount line.amount,
   line.receipt_url.getD ""]

/-- `format_pending_reports_csv` at row granularity: the header row, then
one row per line of each report in order — the source iterates
`for report in reports: for line in report.lines: writer.writerow(...)`
with no filter on line status. -/
def format_pending_reports_rows (reports : List ExpenseReport) : List (List String) :=
  csvHeader :: (reports.map (fun r => r.lines.map (csvLineRow r))).flatten

/-- The SFTP-related configuration read by `dispatch_csv_via_sftp` (values
as stored in the Flask config, before `.strip()`). -/
structure SftpConfig where
  host : String
  username : String
  password : String
deriving DecidableEq, Repr

/-- Message of the `ValueError` raised when SFTP credentials are missing. -/
def sftpConfigErrMsg : String := "NetSuite SFTP credentials are not fully configured."

/-- Observable outcome of the `dispatch_pending_uploads` route body: the
report list after the call, the payloads passed to the transport's write
call(s), and the exception that propagated, if any. -/
structure DispatchOutcome where
  reports : List ExpenseReport
  writes : List (List (List String))
  error : Option String
deriving DecidableEq, Repr

/-- `dispatch_pending_uploads` composed with `dispatch_csv_via_sftp`,
with the SFTP transport abstracted by `transportError` (`none` — the
remote write succeeds; `some e` — connect/auth/write raises `e`, which
propagates).  On the empty batch the route returns early; on a raised
error no report status is touched; on success every report is marked
`Completed`. -/
def dispatch_pending_uploads (cfg : SftpConfig) (transportError : Option String)
    (reports : List ExpenseReport) : DispatchOutcome :=
  if reports.isEmpty then { reports := reports, writes := [], error := none }
  else
    let payload := format_pending_reports_rows reports
    if pyStrip cfg.host = "" ∨ pyStrip cfg.username = "" ∨ pyStrip cfg.password = "" then
      { reports := reports, writes := [], error := some sftpConfigErrMsg }
    else
      match transportError with
      | some e => { reports := reports, writes := [payload], error := some e }
      | none =>
          { reports := reports.map (fun r => { r with status := "Completed" })
            writes := [payload]
            error := none }

/-- The net effect of one loop iteration on one line when its decision is
present and valid — used to state what the committed mutations are. -/
def applyDecisionToLine (dmap : Int → Option ExpenseLineDecision)
    (l : ExpenseLine) : ExpenseLine :=
  match dmap l.id with
  | some d =>
    if pyLower (pyStrip d.status) = "reject" then
      { l with status := "Rejected", rejection_comment := some d.comment }
    else
      { l with status := "Approved", rejection_comment := none }
  | none => l

/-- The looked-up decision exists and its normalized action is `approve` or
`reject` — the condition under which the loop does not raise `selectMsg`
at this line. -/
def decisionActionOK (o : Option ExpenseLineDecision) : Bool :=
  match o with
  | some d => pyLower (pyStrip d.status) == "approve" || pyLower (pyStrip d.status) == "reject"
  | none => false

/-- The looked-up decision exists, has a valid action, and carries a
nonempty comment when rejecting — the condition under which the loop
commits this line without raising. -/
def decisionFullOK (o : Option ExpenseLineDecision) : Bool :=
  match o with
  | some d => pyLower (pyStrip d.status) == "approve" ||
      (pyLower (pyStrip d.status) == "reject" && d.comment != "")
  | none => false

/-- The looked-up decision exists and approves the line. -/
def decisionApproves (o : Option ExpenseLineDecision) : Bool :=
  match o with
  | some d => pyLower (pyStrip d.status) == "approve"
  | none => false

/-- The looked-up decision exists and rejects the line. -/
def decisionRejects (o : Option ExpenseLineDecision) : Bool :=
  match o with
  | some d => pyLower (pyStrip d.status) == "reject"
  | none => false

/-- The looked-up decision is a reject with an empty comment — the
condition under which the loop raises `commentMsg` at this line. -/
def decisionRejectsEmpty (o : Option ExpenseLineDecision) : Bool :=
  match o with
  | some d => pyLower (pyStrip d.status) == "reject" && d.comment == ""
  | none => false

/-- The line list left in memory when the loop raises at the first
empty-comment reject: lines before it committed, it and the rest
untouched. -/
def linesAtRaise (dmap : Int → Option ExpenseLineDecision)
    (lines : List ExpenseLine) : List ExpenseLine :=
  (lines.takeWhile (fun l => !decisionRejectsEmpty (dmap l.id))).map
    (applyDecisionToLine dmap)
  ++ lines.dropWhile (fun l => !decisionRejectsEmpty (dmap l.id))

/-- The character shape `YYYY-MM-DD`: four digits, a dash, two digits, a
dash, two digits. -/
def isIsoDateShape (s : String) : Prop :=
  ∃ a b c : List Char,
    s.data = a ++ '-' :: (b ++ '-' :: c)
    ∧ a.length = 4 ∧ b.length = 2 ∧ c.length = 2
    ∧ (∀ ch ∈ a, ch.isDigit = true)
    ∧ (∀ ch ∈ b, ch.isDigit = true)
    ∧ (∀ ch ∈ c, ch.isDigit = true)

/-- The character shape of a fixed two-decimal rendering: a prefix, a dot,
then exactly two digits and nothing after them. -/
def isTwoDecimalShape (s : String) : Prop :=
  ∃ t u : List Char,
    s.data = t ++ '.' :: u ∧ u.length = 2 ∧ ∀ ch ∈ u, ch.isDigit = true

/-! ### Concrete fixtures for counterexamples and witnesses -/

/-- A pending expense line, id 1, amount 12.50. -/
def wLine1 : ExpenseLine :=
  { id := 1, date := ⟨2023, 12, 2⟩, expense_type := "Meals", gl_account := "6000",
    vendor := "Cafe", description := some "lunch", amount := 1250, receipt_url := none,
    status := "Pending", rejection_comment := none }

/-- A second pending expense line, id 2, amount 9.99. -/
def wLine2 : ExpenseLine := { wLine1 with id := 2, amount := 999 }

/-- `wLine1` after line-level approval. -/
def wLineApproved : ExpenseLine := { wLine1 with status := "Approved" }

/-- `wLine2` after line-level rejection. -/
def wLineRejected : ExpenseLine :=
  { wLine2 with status := "Rejected", rejection_comment := some "no receipt" }

/-- A `Pending Upload` report holding one Approved and one Rejected line. -/
def wReportC1 : ExpenseReport :=
  { id := 7, employee_email := some "emp@example.com",
    supervisor_email := some "sup@example.com",
    lines := [wLineApproved, wLineRejected], status := "Pending Upload",
    rejection_comment := none }

/-- A `Pending Review` report with two still-pending lines. -/
def wReport2Pending : ExpenseReport :=
  { wReportC1 with id := 8, lines := [wLine1, wLine2], status := "Pending Review" }

/-- A `Pending Review` report with a single pending line. -/
def wReportOneLine : ExpenseReport :=
  { wReportC1 with id := 10, lines := [wLine1], status := "Pending Review" }

/-- A report with zero lines (status and feedback set, to observe mutation). -/
def wReportNoLines : ExpenseReport :=
  { wReportC1 with
    id := 9
    lines := []
    status := "Pending Review"
    rejection_comment := some "fix" }

/-- A fully configured SFTP endpoint. -/
def wCfg : SftpConfig :=
  { host := "sftp.example.com", username := "u", password := "p" }

/-- Decisions approving both lines of `wReport2Pending`. -/
def wDecisionsApproveAll : List ExpenseLineDecision :=
  [⟨1, "approve", ""⟩, ⟨2, "approve", ""⟩]

/-- Decisions approving line 1 and rejecting line 2 without a comment. -/
def wDecisionsApproveThenEmptyReject : List ExpenseLineDecision :=
  [⟨1, "approve", ""⟩, ⟨2, "reject", ""⟩]

/-- A single reject decision whose comment is whitespace only. -/
def wDecisionsRejectWs : List ExpenseLineDecision := [⟨1, "reject", " "⟩]

/-- Decisions rejecting line 1 with a comment and approving line 2. -/
def wDecisionsMixed : List ExpenseLineDecision :=
  [⟨1, "reject", "no receipt"⟩, ⟨2, "approve", ""⟩]

/-- A form payload carrying review fields for line 1 only. -/
def wForm : String → Option String := fun k =>
  if k = "line_status_1" then some " Approve "
  else if k = "line_comment_1" then some " ok " else none

/-! ### Digit-rendering lemmas -/

theorem natDigitsFuel_congr :
    ∀ f₁ f₂ n, n < f₁ → n < f₂ → natDigitsFuel f₁ n = natDigitsFuel f₂ n := by
  intro f₁
  induction f₁ with
  | zero => intro f₂ n h₁ _; omega
  | succ f ih =>
    intro f₂ n h₁ h₂
    cases f₂ with
    | zero => omega
    | succ g =>
      by_cases h10 : n < 10
      · simp [natDigitsFuel, h10]
      · have hdiv : n / 10 < n := Nat.div_lt_self (by omega) (by omega)
        simp only [natDigitsFuel, h10, if_false]
        rw [ih g (n / 10) (by omega) (by omega)]

/-- Unfolding equation for `natDigits`, independent of the fuel. -/
theorem natDigits_unfold (n : Nat) :
    natDigits n =
      if n < 10 then [Nat.digitChar n]
      else natDigits (n / 10) ++ [Nat.digitChar (n % 10)] := by
  by_cases h10 : n < 10
  · simp [natDigits, natDigitsFuel, h10]
  · have hdiv : n / 10 < n := Nat.div_lt_self (by omega) (by omega)
    rw [if_neg h10, show natDigits n = natDigitsFuel (n + 1) n from rfl]
    simp only [natDigitsFuel, h10, if_false]
    rw [show natDigits (n / 10) = natDigitsFuel (n / 10 + 1) (n / 10) from rfl]
    congr 1
    exact natDigitsFuel_congr n (n / 10 + 1) (n / 10) (by omega) (by omega)

theorem digitChar_isDigit {m : Nat} (h : m < 10) : (Nat.digitChar m).isDigit = true := by
  interval_cases m <;> decide

theorem natDigits_all_digit (n : Nat) : ∀ c ∈ natDigits n, c.isDigit = true := by
  induction n using Nat.strong_induction_on with
  | _ n ih =>
    rw [natDigits_unfold]
    by_cases h10 : n < 10
    · simp only [h10, if_true, List.mem_singleton]
      intro c hc; subst hc; exact digitChar_isDigit h10
    · have hdiv : n / 10 < n := Nat.div_lt_self (by omega) (by omega)
      simp only [h10, if_false, List.mem_append, List.mem_singleton]
      intro c hc
      rcases hc with hc | hc
      · exact ih (n / 10) hdiv c hc
      · subst hc; exact digitChar_isDigit (Nat.mod_lt n (by omega))

theorem natDigits_length_le :
    ∀ n k, 0 < k → n < 10 ^ k → (natDigits n).length ≤ k := by
  intro n
  induction n using Nat.strong_induction_on with
  | _ n ih =>
    intro k hk hn
    rw [natDigits_unfold]
    by_cases h10 : n < 10
    · simp only [h10, if_true, List.length_singleton]
      omega
    · have hdiv : n / 10 < n := Nat.div_lt_self (by omega) (by omega)
      have hk2 : 2 ≤ k := by
        by_contra hcon
        have : k = 1 := by omega
        subst this
        simp at hn
        omega
      have hless : n / 10 < 10 ^ (k - 1) := by
        rw [Nat.div_lt_iff_lt_mul (by omega)]
        have : 10 ^ (k - 1) * 10 = 10 ^ k := by
          rw [← Nat.pow_succ]
          congr 1
          omega
        omega
      have := ih (n / 10) hdiv (k - 1) (by omega) hless
      simp only [h10, if_false, List.length_append, List.length_singleton]
      omega

theorem zpadChars_length {w n : Nat} (h : (natDigits n).length ≤ w) :
    (zpadChars w n).length = w := by
  simp only [zpadChars, List.length_append, List.length_replicate]
  omega

theorem zpadChars_all_digit (w n : Nat) : ∀ c ∈ zpadChars w n, c.isDigit = true := by
  intro c hc
  simp only [zpadChars, List.mem_append, List.mem_replicate] at hc
  rcases hc with ⟨-, hc⟩ | hc
  · subst hc; decide
  · exact natDigits_all_digit n c hc

/-! ### Decision-map and review-loop lemmas -/

theorem decisionMapGet_isSome_of_mem {decisions : List ExpenseLineDecision}
    {d : ExpenseLineDecision} (hd : d ∈ decisions) :
    (decisionMapGet decisions d.line_id).isSome = true := by
  unfold decisionMapGet
  rw [List.find?_isSome]
  exact ⟨d, List.mem_reverse.mpr hd, by simp⟩

theorem decisionActionOK_isSome {o : Option ExpenseLineDecision}
    (h : decisionActionOK o = true) : o.isSome = true := by
  cases o <;> simp [decisionActionOK] at h ⊢

theorem decisionFullOK_isSome {o : Option ExpenseLineDecision}
    (h : decisionFullOK o = true) : o.isSome = true := by
  cases o <;> simp [decisionFullOK] at h ⊢

theorem decisionApproves_isSome {o : Option ExpenseLineDecision}
    (h : decisionApproves o = true) : o.isSome = true := by
  cases o <;> simp [decisionApproves] at h ⊢

theorem missingLineIds_eq_nil {report : ExpenseReport}
    {decisions : List ExpenseLineDecision}
    (h : ∀ l ∈ report.lines, (decisionMapGet decisions l.id).isSome = true) :
    missingLineIds report decisions = [] := by
  unfold missingLineIds
  rw [List.filter_eq_nil_iff.mpr]
  · rfl
  · intro l hl
    have hs := h l hl
    cases hsome : decisionMapGet decisions l.id with
    | none => rw [hsome] at hs; simp at hs
    | some d => simp [hsome]

theorem applyDecisionToLine_id (dmap : Int → Option ExpenseLineDecision)
    (l : ExpenseLine) : (applyDecisionToLine dmap l).id = l.id := by
  unfold applyDecisionToLine
  cases dmap l.id with
  | none => rfl
  | some d => by_cases h : pyLower (pyStrip d.status) = "reject" <;> simp [h]

/-- When every line's decision is present with a valid action and a
nonempty comment on rejects, the loop commits every line and reports
whether any line was rejected. -/
theorem reviewLoop_ok (dmap : Int → Option ExpenseLineDecision) :
    ∀ lines : List ExpenseLine,
    (∀ l ∈ lines, decisionFullOK (dmap l.id) = true) →
    reviewLoop dmap lines =
      (lines.map (applyDecisionToLine dmap),
       lines.any (fun l => decisionRejects (dmap l.id)), none) := by
  intro lines
  induction lines with
  | nil => intro _; rfl
  | cons line rest ih =>
    intro h
    have hline := h line (by simp)
    have hrest : ∀ l ∈ rest, decisionFullOK (dmap l.id) = true :=
      fun l hl => h l (by simp [hl])
    cases hd : dmap line.id with
    | none => rw [hd] at hline; simp [decisionFullOK] at hline
    | some d =>
      rw [hd] at hline
      simp only [decisionFullOK, Bool.or_eq_true, Bool.and_eq_true, beq_iff_eq,
        bne_iff_ne, ne_eq] at hline
      rcases hline with hA | ⟨hR, hC⟩
      · simp [reviewLoop, hd, hA, ih hrest, applyDecisionToLine, decisionRejects]
      · simp [reviewLoop, hd, hR, hC, ih hrest, applyDecisionToLine, decisionRejects]

/-- If the loop finishes with no error and `any_rejected = false`, every
line in the resulting list is `Approved`. -/
theorem reviewLoop_all_approved (dmap : Int → Option ExpenseLineDecision) :
    ∀ lines lines' : List ExpenseLine,
    reviewLoop dmap lines = (lines', false, none) →
    ∀ l ∈ lines', l.status = "Approved" := by
  intro lines
  induction lines with
  | nil =>
    intro lines' h l hl
    simp only [reviewLoop, Prod.mk.injEq] at h
    rw [← h.1] at hl
    simp at hl
  | cons line rest ih =>
    intro lines' h
    simp only [reviewLoop] at h
    rcases hr : reviewLoop dmap rest with ⟨rl, rf, re⟩
    rw [hr] at h
    split at h
    · simp at h
    · split at h
      · simp at h
      · split at h
        · split at h
          · simp at h
          · simp at h
        · simp only [Prod.mk.injEq] at h
          obtain ⟨h1, h2, h3⟩ := h
          intro l hl
          rw [← h1] at hl
          rcases List.mem_cons.mp hl with hl | hl
          · rw [hl]
          · exact ih rl (by rw [hr, h2, h3]) l hl

/-- When every decision is present with a valid action but some line's
reject has an empty comment, the loop raises `commentMsg` at the first
such line: the lines before it are committed, the offending line and the
rest keep their pre-call state. -/
theorem reviewLoop_stops_at_empty_comment (dmap : Int → Option ExpenseLineDecision) :
    ∀ lines : List ExpenseLine,
    (∀ l ∈ lines, decisionActionOK (dmap l.id) = true) →
    lines.any (fun l => decisionRejectsEmpty (dmap l.id)) = true →
    ∃ flag,
      reviewLoop dmap lines =
        ((lines.takeWhile (fun l => !decisionRejectsEmpty (dmap l.id))).map
            (applyDecisionToLine dmap)
          ++ lines.dropWhile (fun l => !decisionRejectsEmpty (dmap l.id)),
         flag, some commentMsg) := by
  intro lines
  induction lines with
  | nil => intro _ hany; simp at hany
  | cons line rest ih =>
    intro h hany
    have hline := h line (by simp)
    by_cases hbad : decisionRejectsEmpty (dmap line.id) = true
    · cases hd : dmap line.id with
      | none => rw [hd] at hbad; simp [decisionRejectsEmpty] at hbad
      | some d =>
        rw [hd] at hbad
        simp only [decisionRejectsEmpty, Bool.and_eq_true, beq_iff_eq] at hbad
        obtain ⟨hR, hC⟩ := hbad
        refine ⟨false, ?_⟩
        simp [reviewLoop, List.takeWhile_cons, List.dropWhile_cons, hd, hR, hC,
          decisionRejectsEmpty]
    · have hrest : ∀ l ∈ rest, decisionActionOK (dmap l.id) = true :=
        fun l hl => h l (by simp [hl])
      have hany' : rest.any (fun l => decisionRejectsEmpty (dmap l.id)) = true := by
        simp only [List.any_cons, Bool.or_eq_true] at hany
        rcases hany with hh | ht
        · exact absurd hh hbad
        · exact ht
      obtain ⟨flag, hloop⟩ := ih hrest hany'
      have hpred : (!decisionRejectsEmpty (dmap line.id)) = true := by
        simp [Bool.not_eq_true'] at hbad ⊢
        exact hbad
      cases hd : dmap line.id with
      | none => rw [hd] at hline; simp [decisionActionOK] at hline
      | some d =>
        rw [hd] at hline
        simp only [decisionActionOK, Bool.or_eq_true, beq_iff_eq] at hline
        rcases hline with hA | hR
        · refine ⟨flag, ?_⟩
          simp [reviewLoop, List.takeWhile_cons, List.dropWhile_cons, hd, hA, hloop,
            applyDecisionToLine, decisionRejectsEmpty]
        · have hC : d.comment ≠ "" := by
            intro hc
            rw [hd] at hbad
            exact hbad (by simp [decisionRejectsEmpty, hR, hc])
          refine ⟨true, ?_⟩
          simp [reviewLoop, List.takeWhile_cons, List.dropWhile_cons, hd, hR, hC, hloop,
            applyDecisionToLine, decisionRejectsEmpty]

/-! ### Shape lemmas for rendered fields -/

theorem isoformat_isIsoDateShape (d : CalDate) (hy : d.year ≤ 9999)
    (hm : d.month ≤ 99) (hd : d.day ≤ 99) : isIsoDateShape d.isoformat := by
  refine ⟨zpadChars 4 d.year, zpadChars 2 d.month, zpadChars 2 d.day, ?_, ?_, ?_, ?_,
    zpadChars_all_digit 4 d.year, zpadChars_all_digit 2 d.month, zpadChars_all_digit 2 d.day⟩
  · simp [CalDate.isoformat]
  · exact zpadChars_length (natDigits_length_le d.year 4 (by omega) (by omega))
  · exact zpadChars_length (natDigits_length_le d.month 2 (by omega) (by omega))
  · exact zpadChars_length (natDigits_length_le d.day 2 (by omega) (by omega))

theorem formatAmount_isTwoDecimalShape (cents : Int) :
    isTwoDecimalShape (formatAmount cents) := by
  refine ⟨(if cents < 0 then ['-'] else []) ++ natDigits (cents.natAbs / 100),
    zpadChars 2 (cents.natAbs % 100), ?_, ?_, zpadChars_all_digit 2 (cents.natAbs % 100)⟩
  · simp [formatAmount, List.append_assoc]
  · exact zpadChars_length
      (natDigits_length_le (cents.natAbs % 100) 2 (by omega)
        (by have := Nat.mod_lt cents.natAbs (show 0 < 100 by omega); omega))

/-! ### Export payload lemmas -/

theorem format_data_rows_length (reports : List ExpenseReport) :
    ((format_pending_reports_rows reports).drop 1).length
      = (reports.map (fun r => r.lines.length)).sum := by
  simp only [format_pending_reports_rows, List.drop_succ_cons, List.drop_zero,
    List.length_flatten, List.map_map]
  congr 1
  exact List.map_congr_left (fun r _ => by simp)

/-! ### Claim C1 -/

/-- C1 counterexample: for a batch of one report with one Approved and one
Rejected line, `format_pending_reports_csv` emits two data rows, and the
Rejected line's row does appear in the output — the claimed Approved-only
filter does not exist in the code. -/
theorem C1_counterexample :
    ((format_pending_reports_rows [wReportC1]).drop 1).length = 2
    ∧ csvLineRow wReportC1 wLineRejected ∈ format_pending_reports_rows [wReportC1]
    ∧ wLineRejected.status = "Rejected" := by
  decide

/-- C1 (amended): the export formatter emits one data row for every line of
every report in the batch, regardless of the line's review status — no line
is skipped; in particular every Rejected or Pending line's row is part of
the output. -/
theorem C1_formatter_emits_every_line (reports : List ExpenseReport) :
    (format_pending_reports_rows reports).length
        = 1 + (reports.map (fun r => r.lines.length)).sum
    ∧ ∀ r ∈ reports, ∀ l ∈ r.lines,
        csvLineRow r l ∈ format_pending_reports_rows reports := by
  constructor
  · have h := format_data_rows_length reports
    simp only [format_pending_reports_rows, List.drop_succ_cons, List.drop_zero] at h
    simp only [format_pending_reports_rows, List.length_cons, h]
    omega
  · intro r hr l hl
    simp only [format_pending_reports_rows, List.mem_cons, List.mem_flatten]
    exact Or.inr ⟨r.lines.map (csvLineRow r), List.mem_map_of_mem _ hr,
      List.mem_map_of_mem _ hl⟩

/-- C1 witness: the amended theorem applied to the concrete one-report
batch, showing the Approved line's row in the output. -/
theorem C1_witness :
    csvLineRow wReportC1 wLineApproved ∈ format_pending_reports_rows [wReportC1] :=
  (C1_formatter_emits_every_line [wReportC1]).2 wReportC1 (by decide) wLineApproved
    (by decide)

/-! ### Claim C3 -/

/-- C3 counterexample: on a report with zero lines the call does not raise
any error; it succeeds, moves the report to `Pending Upload` and clears the
rejection comment, mutating both fields. -/
theorem C3_counterexample :
    apply_line_review_decisions wReportNoLines [] =
      .success { wReportNoLines with status := "Pending Upload", rejection_comment := none }
        approveMsg "success"
    ∧ wReportNoLines.status = "Pending Review"
    ∧ wReportNoLines.rejection_comment = some "fix" := by
  decide

/-- C3 (amended): for every report with zero lines and every decision set,
`apply_line_review_decisions` raises no error: it treats the report as
fully approved, setting status `Pending Upload`, clearing the rejection
comment and returning the success message — there is no zero-line check in
the code. -/
theorem C3_zero_lines_succeeds (report : ExpenseReport)
    (h : report.lines = []) (decisions : List ExpenseLineDecision) :
    apply_line_review_decisions report decisions =
      .success { report with status := "Pending Upload", rejection_comment := none }
        approveMsg "success" := by
  obtain ⟨rid, ee, se, ls, st, rc⟩ := report
  simp only at h
  subst h
  rfl

/-- C3 witness: the amended theorem applied at the concrete zero-line
report. -/
theorem C3_witness :
    apply_line_review_decisions wReportNoLines [] =
      .success { wReportNoLines with status := "Pending Upload", rejection_comment := none }
        approveMsg "success" :=
  C3_zero_lines_succeeds wReportNoLines rfl []

/-! ### Claim C8 -/

/-- C8: the export payload is exactly one fixed header row followed by the
data rows; each data row carries, in order: report id, employee email,
supervisor email, ISO-8601 expense date, expense-type label, GL account,
vendor, description (empty when absent), amount with exactly two decimals
and no currency symbol, and receipt reference (empty when absent). -/
theorem C8_export_row_format (reports : List ExpenseReport) :
    (format_pending_reports_rows reports).head? = some csvHeader
    ∧ csvHeader = ["report_id", "employee_email", "supervisor_email", "expense_date",
        "expense_type", "gl_account", "vendor", "description", "amount", "receipt_url"]
    ∧ (∀ row ∈ (format_pending_reports_rows reports).drop 1,
        ∃ r, r ∈ reports ∧ ∃ l, l ∈ r.lines ∧
          row = [intStr r.id, r.employee_email.getD "", r.supervisor_email.getD "",
            l.date.isoformat, l.expense_type, l.gl_account, l.vendor,
            l.description.getD "", formatAmount l.amount, l.receipt_url.getD ""])
    ∧ (∀ r ∈ reports, ∀ l ∈ r.lines,
        l.date.year ≤ 9999 → l.date.month ≤ 99 → l.date.day ≤ 99 →
          isIsoDateShape l.date.isoformat)
    ∧ (∀ r ∈ reports, ∀ l ∈ r.lines, isTwoDecimalShape (formatAmount l.amount)) := by
  refine ⟨rfl, rfl, ?_, ?_, ?_⟩
  · intro row hrow
    simp only [format_pending_reports_rows, List.drop_succ_cons, List.drop_zero,
      List.mem_flatten, List.mem_map] at hrow
    obtain ⟨sub, ⟨r, hr, hsub⟩, hrowsub⟩ := hrow
    rw [← hsub] at hrowsub
    obtain ⟨l, hl, hrow⟩ := List.mem_map.mp hrowsub
    exact ⟨r, hr, l, hl, hrow ▸ rfl⟩
  · intro r _ l _ hy hm hd
    exact isoformat_isIsoDateShape l.date hy hm hd
  · intro r _ l _
    exact formatAmount_isTwoDecimalShape l.amount

/-- C8 witness: the theorem applied to the concrete one-report batch — the
header is first, and the concrete date and amount render in ISO and
two-decimal shape. -/
theorem C8_witness :
    (format_pending_reports_rows [wReportC1]).head? = some csvHeader
    ∧ isIsoDateShape wLineApproved.date.isoformat
    ∧ isTwoDecimalShape (formatAmount wLineApproved.amount) := by
  refine ⟨(C8_export_row_format [wReportC1]).1, ?_, ?_⟩
  · exact (C8_export_row_format [wReportC1]).2.2.2.1 wReportC1 (by decide) wLineApproved
      (by decide) (by decide) (by decide) (by decide)
  · exact (C8_export_row_format [wReportC1]).2.2.2.2 wReportC1 (by decide) wLineApproved
      (by decide)

/-! ### Claim C2 -/

/-- C2 counterexample: with decisions approving line 1 and rejecting line 2
without a comment, the call raises the missing-comment error, but line 1's
status has already been mutated from `Pending` to `Approved` — the claimed
all-or-nothing behaviour fails. -/
theorem C2_counterexample :
    apply_line_review_decisions wReport2Pending wDecisionsApproveThenEmptyReject =
      .failure commentMsg
        { wReport2Pending with
          lines := [{ wLine1 with status := "Approved" }, wLine2] }
    ∧ wLine1.status = "Pending" := by
  decide

/-- C2 (amended): for every report and complete decision set with valid
actions containing a reject whose comment is empty, the call raises the
missing-comment error before mutating the report's status, the report's
rejection comment, or any line at or after the first empty-comment reject
in report order — but the lines before that point have already been
mutated according to their decisions. -/
theorem C2_empty_comment_reject_partial_mutation (report : ExpenseReport)
    (decisions : List ExpenseLineDecision)
    (hact : ∀ l ∈ report.lines,
      decisionActionOK (decisionMapGet decisions l.id) = true)
    (hbad : report.lines.any
      (fun l => decisionRejectsEmpty (decisionMapGet decisions l.id)) = true) :
    apply_line_review_decisions report decisions =
      .failure commentMsg
        { report with
          lines := linesAtRaise (decisionMapGet decisions) report.lines } := by
  have hcov : ∀ l ∈ report.lines, (decisionMapGet decisions l.id).isSome = true :=
    fun l hl => decisionActionOK_isSome (hact l hl)
  obtain ⟨flag, hloop⟩ :=
    reviewLoop_stops_at_empty_comment (decisionMapGet decisions) report.lines hact hbad
  unfold apply_line_review_decisions
  rw [missingLineIds_eq_nil hcov, if_neg (by simp)]
  simp [hloop, linesAtRaise]

/-- C2 witness: the amended theorem applied at the concrete two-line
report with an approve followed by an empty-comment reject. -/
theorem C2_witness :
    apply_line_review_decisions wReport2Pending wDecisionsApproveThenEmptyReject =
      .failure commentMsg
        { wReport2Pending with
          lines := linesAtRaise
            (decisionMapGet wDecisionsApproveThenEmptyReject) wReport2Pending.lines } :=
  C2_empty_comment_reject_partial_mutation wReport2Pending
    wDecisionsApproveThenEmptyReject (by decide) (by decide)

/-! ### Claim C4 -/

/-- C4 counterexample: a reject decision whose comment is a single space
(trimmed: empty) is accepted without any error — the report moves to
`Draft` and the line's comment is stored as `" "`, verbatim, not trimmed —
because the applier checks and stores `decision.comment` without
trimming. -/
theorem C4_counterexample :
    apply_line_review_decisions wReportOneLine wDecisionsRejectWs =
      .success { wReportOneLine with
                 lines := [{ wLine1 with status := "Rejected", rejection_comment := some " " }]
                 status := "Draft"
                 rejection_comment := some draftNote } draftMsg "info"
    ∧ pyStrip " " = "" := by
  decide

/-- C4 (amended): with complete decisions and valid actions, the
missing-comment error is raised exactly when some line's reject decision
carries the empty-string comment (no trimming is applied by the applier —
comments arrive pre-trimmed from the form parser); when no reject comment
is empty the call commits every line, and a rejected line's comment is set
to the decision comment verbatim. -/
theorem C4_reject_comment_untrimmed (report : ExpenseReport)
    (decisions : List ExpenseLineDecision)
    (hact : ∀ l ∈ report.lines,
      decisionActionOK (decisionMapGet decisions l.id) = true) :
    (report.lines.any
        (fun l => decisionRejectsEmpty (decisionMapGet decisions l.id)) = true →
      (apply_line_review_decisions report decisions).errorMsg = some commentMsg)
    ∧ ((∀ l ∈ report.lines,
          decisionRejectsEmpty (decisionMapGet decisions l.id) = false) →
        (apply_line_review_decisions report decisions).errorMsg = none
        ∧ (apply_line_review_decisions report decisions).report.lines
            = report.lines.map (applyDecisionToLine (decisionMapGet decisions))
        ∧ ∀ l ∈ report.lines, ∀ d, decisionMapGet decisions l.id = some d →
            pyLower (pyStrip d.status) = "reject" →
              applyDecisionToLine (decisionMapGet decisions) l
                = { l with status := "Rejected", rejection_comment := some d.comment }) := by
  have hcov : ∀ l ∈ report.lines, (decisionMapGet decisions l.id).isSome = true :=
    fun l hl => decisionActionOK_isSome (hact l hl)
  constructor
  · intro hbad
    obtain ⟨flag, hloop⟩ :=
      reviewLoop_stops_at_empty_comment (decisionMapGet decisions) report.lines hact hbad
    unfold apply_line_review_decisions
    rw [missingLineIds_eq_nil hcov, if_neg (by simp)]
    simp [hloop, ApplyResult.errorMsg]
  · intro hgood
    have hfull : ∀ l ∈ report.lines,
        decisionFullOK (decisionMapGet decisions l.id) = true := by
      intro l hl
      have ha := hact l hl
      have hg := hgood l hl
      cases hd : decisionMapGet decisions l.id with
      | none => rw [hd] at ha; simp [decisionActionOK] at ha
      | some d =>
        rw [hd] at ha hg
        simp only [decisionActionOK, Bool.or_eq_true, beq_iff_eq] at ha
        simp only [decisionRejectsEmpty, Bool.and_eq_true, beq_iff_eq] at hg
        simp only [decisionFullOK, Bool.or_eq_true, Bool.and_eq_true, beq_iff_eq,
          bne_iff_ne, ne_eq]
        rcases ha with ha | ha
        · exact Or.inl ha
        · refine Or.inr ⟨ha, ?_⟩
          intro hc
          simp [ha, hc] at hg
    have hloop := reviewLoop_ok (decisionMapGet decisions) report.lines hfull
    unfold apply_line_review_decisions
    rw [missingLineIds_eq_nil hcov, if_neg (by simp)]
    refine ⟨?_, ?_, ?_⟩
    · simp only [hloop]
      split <;> rfl
    · simp only [hloop]
      split <;> rfl
    · intro l _ d hd hR
      simp [applyDecisionToLine, hd, hR]

/-- C4 witness: the amended theorem applied at a concrete report with a
commented reject and an approve, showing the committed line list. -/
theorem C4_witness :
    (apply_line_review_decisions wReport2Pending wDecisionsMixed).report.lines
      = wReport2Pending.lines.map (applyDecisionToLine (decisionMapGet wDecisionsMixed)) :=
  (((C4_reject_comment_untrimmed wReport2Pending wDecisionsMixed (by decide)).2
    (by decide)).2).1

/-! ### Claim C5 -/

/-- C5: for every complete valid decision set containing at least one
reject, the call succeeds with the report set to `Draft`, the report's
rejection comment set to the fixed line-level-feedback note, severity
`"info"` and a message containing `"draft"`; every rejected line ends
`Rejected` carrying its decision comment and every approved line ends
`Approved` with its comment cleared. -/
theorem C5_reject_sets_draft (report : ExpenseReport)
    (decisions : List ExpenseLineDecision)
    (hfull : ∀ l ∈ report.lines,
      decisionFullOK (decisionMapGet decisions l.id) = true)
    (hrej : report.lines.any
      (fun l => decisionRejects (decisionMapGet decisions l.id)) = true) :
    apply_line_review_decisions report decisions =
      .success { report with
                 lines := report.lines.map (applyDecisionToLine (decisionMapGet decisions))
                 status := "Draft"
                 rejection_comment := some draftNote } draftMsg "info"
    ∧ (∃ pre post, draftMsg = pre ++ "draft" ++ post)
    ∧ ∀ (i : Nat) (l : ExpenseLine) (d : ExpenseLineDecision),
        report.lines[i]? = some l →
        decisionMapGet decisions l.id = some d →
        ((pyLower (pyStrip d.status) = "reject" →
            (apply_line_review_decisions report decisions).report.lines[i]?
              = some { l with status := "Rejected", rejection_comment := some d.comment })
         ∧ (pyLower (pyStrip d.status) = "approve" →
            (apply_line_review_decisions report decisions).report.lines[i]?
              = some { l with status := "Approved", rejection_comment := none })) := by
  have hcov : ∀ l ∈ report.lines, (decisionMapGet decisions l.id).isSome = true :=
    fun l hl => decisionFullOK_isSome (hfull l hl)
  have hloop := reviewLoop_ok (decisionMapGet decisions) report.lines hfull
  have happly : apply_line_review_decisions report decisions =
      .success { report with
                 lines := report.lines.map (applyDecisionToLine (decisionMapGet decisions))
                 status := "Draft"
                 rejection_comment := some draftNote } draftMsg "info" := by
    unfold apply_line_review_decisions
    rw [missingLineIds_eq_nil hcov, if_neg (by simp)]
    simp [hloop, hrej]
  refine ⟨happly, ⟨"Report updated with rejected lines and returned to ", " status.", rfl⟩, ?_⟩
  intro i l d hli hd
  have hline : (apply_line_review_decisions report decisions).report.lines[i]?
      = some (applyDecisionToLine (decisionMapGet decisions) l) := by
    rw [happly]
    simp only [ApplyResult.report, List.getElem?_map, hli]
    rfl
  constructor
  · intro hR
    rw [hline]
    simp [applyDecisionToLine, hd, hR]
  · intro hA
    rw [hline]
    have : ¬pyLower (pyStrip d.status) = "reject" := by
      rw [hA]; decide
    simp [applyDecisionToLine, hd, this]

/-- C5 witness: the theorem applied at the concrete two-pending-line report
with a commented reject on line 1 and an approve on line 2. -/
theorem C5_witness :
    apply_line_review_decisions wReport2Pending wDecisionsMixed =
      .success { wReport2Pending with
                 lines := wReport2Pending.lines.map
                   (applyDecisionToLine (decisionMapGet wDecisionsMixed))
                 status := "Draft"
                 rejection_comment := some draftNote } draftMsg "info" :=
  (C5_reject_sets_draft wReport2Pending wDecisionsMixed (by decide) (by decide)).1

/-! ### Claim C6 -/

/-- C6: for every report with at least one line and a complete
fully-approving decision set, the call succeeds with status
`Pending Upload`, a cleared rejection comment, every line `Approved` with
no comment and severity `"success"`; reapplying the same decisions to the
resulting report yields the identical report and the same result. -/
theorem C6_all_approve_idempotent (report : ExpenseReport)
    (decisions : List ExpenseLineDecision)
    (_hne : report.lines ≠ [])
    (happ : ∀ l ∈ report.lines,
      decisionApproves (decisionMapGet decisions l.id) = true) :
    ∃ rep₁,
      apply_line_review_decisions report decisions = .success rep₁ approveMsg "success"
      ∧ rep₁.status = "Pending Upload"
      ∧ rep₁.rejection_comment = none
      ∧ (∀ l ∈ rep₁.lines, l.status = "Approved" ∧ l.rejection_comment = none)
      ∧ apply_line_review_decisions rep₁ decisions
          = .success rep₁ approveMsg "success" := by
  have hfull : ∀ l ∈ report.lines,
      decisionFullOK (decisionMapGet decisions l.id) = true := by
    intro l hl
    have ha := happ l hl
    cases hd : decisionMapGet decisions l.id with
    | none => rw [hd] at ha; simp [decisionApproves] at ha
    | some d =>
      rw [hd] at ha
      simp only [decisionApproves, beq_iff_eq] at ha
      simp [decisionFullOK, ha]
  have hcov : ∀ l ∈ report.lines, (decisionMapGet decisions l.id).isSome = true :=
    fun l hl => decisionFullOK_isSome (hfull l hl)
  have hnorej : report.lines.any
      (fun l => decisionRejects (decisionMapGet decisions l.id)) = false := by
    rw [List.any_eq_false]
    intro l hl
    have ha := happ l hl
    cases hd : decisionMapGet decisions l.id with
    | none => simp [decisionRejects]
    | some d =>
      rw [hd] at ha
      simp only [decisionApproves, beq_iff_eq] at ha
      simp [decisionRejects, ha]
  have hloop := reviewLoop_ok (decisionMapGet decisions) report.lines hfull
  have happrove : ∀ l ∈ report.lines,
      applyDecisionToLine (decisionMapGet decisions) l
        = { l with status := "Approved", rejection_comment := none } := by
    intro l hl
    have ha := happ l hl
    cases hd : decisionMapGet decisions l.id with
    | none => rw [hd] at ha; simp [decisionApproves] at ha
    | some d =>
      rw [hd] at ha
      simp only [decisionApproves, beq_iff_eq] at ha
      have : ¬pyLower (pyStrip d.status) = "reject" := by rw [ha]; decide
      simp [applyDecisionToLine, hd, this]
  refine ⟨{ report with
            lines := report.lines.map (applyDecisionToLine (decisionMapGet decisions))
            status := "Pending Upload"
            rejection_comment := none }, ?_, rfl, rfl, ?_, ?_⟩
  · unfold apply_line_review_decisions
    rw [missingLineIds_eq_nil hcov, if_neg (by simp)]
    simp [hloop, hnorej]
  · intro l hl
    simp only [List.mem_map] at hl
    obtain ⟨l₀, hl₀, hmap⟩ := hl
    rw [← hmap, happrove l₀ hl₀]
    exact ⟨rfl, rfl⟩
  · have hid : ∀ l₀ ∈ report.lines,
        (applyDecisionToLine (decisionMapGet decisions) l₀).id = l₀.id :=
      fun l₀ _ => applyDecisionToLine_id (decisionMapGet decisions) l₀
    have happ₁ : ∀ l ∈ report.lines.map (applyDecisionToLine (decisionMapGet decisions)),
        decisionApproves (decisionMapGet decisions l.id) = true := by
      intro l hl
      obtain ⟨l₀, hl₀, hmap⟩ := List.mem_map.mp hl
      rw [← hmap, hid l₀ hl₀]
      exact happ l₀ hl₀
    have hfull₁ : ∀ l ∈ report.lines.map (applyDecisionToLine (decisionMapGet decisions)),
        decisionFullOK (decisionMapGet decisions l.id) = true := by
      intro l hl
      have ha := happ₁ l hl
      cases hd : decisionMapGet decisions l.id with
      | none => rw [hd] at ha; simp [decisionApproves] at ha
      | some d =>
        rw [hd] at ha
        simp only [decisionApproves, beq_iff_eq] at ha
        simp [decisionFullOK, ha]
    have hcov₁ : ∀ l ∈ report.lines.map (applyDecisionToLine (decisionMapGet decisions)),
        (decisionMapGet decisions l.id).isSome = true :=
      fun l hl => decisionFullOK_isSome (hfull₁ l hl)
    have hnorej₁ : (report.lines.map (applyDecisionToLine (decisionMapGet decisions))).any
        (fun l => decisionRejects (decisionMapGet decisions l.id)) = false := by
      rw [List.any_eq_false]
      intro l hl
      have ha := happ₁ l hl
      cases hd : decisionMapGet decisions l.id with
      | none => simp [decisionRejects]
      | some d =>
        rw [hd] at ha
        simp only [decisionApproves, beq_iff_eq] at ha
        simp [decisionRejects, ha]
    have hmapmap : (report.lines.map (applyDecisionToLine (decisionMapGet decisions))).map
        (applyDecisionToLine (decisionMapGet decisions))
        = report.lines.map (applyDecisionToLine (decisionMapGet decisions)) := by
      rw [List.map_map]
      refine List.map_congr_left ?_
      intro l₀ hl₀
      have h₁ := happrove l₀ hl₀
      have h₂ : applyDecisionToLine (decisionMapGet decisions)
          (applyDecisionToLine (decisionMapGet decisions) l₀)
          = applyDecisionToLine (decisionMapGet decisions) l₀ := by
        have hidl : (applyDecisionToLine (decisionMapGet decisions) l₀).id = l₀.id :=
          applyDecisionToLine_id _ _
        have ha := happ l₀ hl₀
        cases hd : decisionMapGet decisions l₀.id with
        | none => rw [hd] at ha; simp [decisionApproves] at ha
        | some d =>
          rw [hd] at ha
          simp only [decisionApproves, beq_iff_eq] at ha
          have hnR : ¬pyLower (pyStrip d.status) = "reject" := by rw [ha]; decide
          rw [h₁]
          simp [applyDecisionToLine, hidl, h₁, hd, hnR]
      simp [h₂]
    have hloop₁ := reviewLoop_ok (decisionMapGet decisions)
      (report.lines.map (applyDecisionToLine (decisionMapGet decisions))) hfull₁
    unfold apply_line_review_decisions
    rw [missingLineIds_eq_nil hcov₁, if_neg (by simp)]
    simp only [hloop₁, hnorej₁, hmapmap]
    rfl

/-- C6 witness: the theorem applied at the concrete two-pending-line report
with an approve decision for both lines. -/
theorem C6_witness :
    ∃ rep₁,
      apply_line_review_decisions wReport2Pending wDecisionsApproveAll
          = .success rep₁ approveMsg "success"
      ∧ rep₁.status = "Pending Upload"
      ∧ rep₁.rejection_comment = none
      ∧ (∀ l ∈ rep₁.lines, l.status = "Approved" ∧ l.rejection_comment = none)
      ∧ apply_line_review_decisions rep₁ wDecisionsApproveAll
          = .success rep₁ approveMsg "success" :=
  C6_all_approve_idempotent wReport2Pending wDecisionsApproveAll (by decide) (by decide)

/-! ### Claim C7 -/

/-- C7 counterexample: dispatching one `Pending Upload` report that holds
one Approved and one Rejected line writes a payload with two data rows,
while the total Approved-line count is one — the payload row count equals
the total line count, not the Approved-line count, because the formatter
does not filter by line status. -/
theorem C7_counterexample :
    ((dispatch_pending_uploads wCfg none [wReportC1]).writes.map
        (fun w => (w.drop 1).length)) = [2]
    ∧ (wReportC1.lines.filter (fun l => l.status == "Approved")).length = 1 := by
  decide

/-- C7 (amended): with configured credentials and a nonempty batch, if the
transport write raises then the error propagates, no report status changes
and the transport received the single (failed) write of the formatted
payload; if the transport succeeds, every report ends `Completed`, the
transport received exactly one write whose payload is the formatted batch,
and that payload's data-row count equals the total line count across all
input reports (the Approved-line count only when every line is
Approved). -/
theorem C7_dispatch_atomicity (cfg : SftpConfig) (reports : List ExpenseReport)
    (hcfg : ¬(pyStrip cfg.host = "" ∨ pyStrip cfg.username = ""
      ∨ pyStrip cfg.password = ""))
    (hne : reports ≠ []) :
    (∀ e, dispatch_pending_uploads cfg (some e) reports =
        { reports := reports
          writes := [format_pending_reports_rows reports]
          error := some e })
    ∧ dispatch_pending_uploads cfg none reports =
        { reports := reports.map (fun r => { r with status := "Completed" })
          writes := [format_pending_reports_rows reports]
          error := none }
    ∧ (∀ r' ∈ (dispatch_pending_uploads cfg none reports).reports,
        r'.status = "Completed")
    ∧ ((format_pending_reports_rows reports).drop 1).length
        = (reports.map (fun r => r.lines.length)).sum := by
  have hempty : reports.isEmpty = false := by
    cases reports with
    | nil => exact absurd rfl hne
    | cons r rs => rfl
  refine ⟨?_, ?_, ?_, format_data_rows_length reports⟩
  · intro e
    unfold dispatch_pending_uploads
    rw [hempty, if_neg (by simp), if_neg hcfg]
  · unfold dispatch_pending_uploads
    rw [hempty, if_neg (by simp), if_neg hcfg]
  · intro r' hr'
    unfold dispatch_pending_uploads at hr'
    rw [hempty, if_neg (by simp), if_neg hcfg] at hr'
    simp only [List.mem_map] at hr'
    obtain ⟨r, -, hmap⟩ := hr'
    rw [← hmap]

/-- C7 witness: the amended theorem applied at a concrete configuration,
batch and failing transport. -/
theorem C7_witness :
    dispatch_pending_uploads wCfg (some "write failed") [wReportC1] =
      { reports := [wReportC1]
        writes := [format_pending_reports_rows [wReportC1]]
        error := some "write failed" } :=
  (C7_dispatch_atomicity wCfg [wReportC1] (by decide) (by decide)).1 "write failed"

/-! ### Claim C9 -/

/-- C9: a report never reaches `Pending Upload` with an unresolved line —
whenever `apply_line_review_decisions` returns a report in `Pending Upload`
status, every line of that report is `Approved` (in particular none is
`Pending`); and the dispatch operation never sets `Pending Upload`: each
report it returns is either unchanged or moved to `Completed`. -/
theorem C9_pending_upload_implies_all_approved :
    (∀ (report : ExpenseReport) (decisions : List ExpenseLineDecision)
        (rep : ExpenseReport) (msg cat : String),
      apply_line_review_decisions report decisions = .success rep msg cat →
      rep.status = "Pending Upload" →
      ∀ l ∈ rep.lines, l.status = "Approved")
    ∧ (∀ (cfg : SftpConfig) (transportError : Option String)
        (reports : List ExpenseReport) (r' : ExpenseReport),
      r' ∈ (dispatch_pending_uploads cfg transportError reports).reports →
      r' ∈ reports ∨ r'.status = "Completed") := by
  constructor
  · intro report decisions rep msg cat h hstat l hl
    unfold apply_line_review_decisions at h
    rcases hr : reviewLoop (decisionMapGet decisions) report.lines with ⟨rl, rf, re⟩
    split at h
    · simp at h
    · simp only [hr] at h
      rcases re with - | msg'
      · cases rf with
        | false =>
          rw [if_neg (by simp)] at h
          obtain ⟨hrep, -, -⟩ := ApplyResult.success.inj h
          rw [← hrep] at hl
          exact reviewLoop_all_approved (decisionMapGet decisions) report.lines rl
            (by rw [hr]) l hl
        | true =>
          rw [if_pos rfl] at h
          obtain ⟨hrep, -, -⟩ := ApplyResult.success.inj h
          rw [← hrep] at hstat
          simp at hstat
      · simp at h
  · intro cfg transportError reports r' hr'
    unfold dispatch_pending_uploads at hr'
    split at hr'
    · exact Or.inl hr'
    · split at hr'
      · exact Or.inl hr'
      · rcases transportError with - | e
        · simp only at hr'
          simp only [List.mem_map] at hr'
          obtain ⟨r, -, hmap⟩ := hr'
          exact Or.inr (by rw [← hmap])
        · exact Or.inl hr'

/-- C9 witness: both parts applied at concrete inputs — the all-approved
result of a concrete review has only `Approved` lines, and a concrete
dispatch output report is unchanged or `Completed`. -/
theorem C9_witness :
    (∀ l ∈ ({ wReport2Pending with
              lines := [{ wLine1 with status := "Approved" },
                { wLine2 with status := "Approved" }]
              status := "Pending Upload"
              rejection_comment := none } : ExpenseReport).lines,
        l.status = "Approved")
    ∧ (wReportC1 ∈ [wReportC1] ∨ wReportC1.status = "Completed") :=
  ⟨C9_pending_upload_implies_all_approved.1 wReport2Pending wDecisionsApproveAll
      _ approveMsg "success" (by decide) rfl,
    C9_pending_upload_implies_all_approved.2 wCfg (some "boom") [wReportC1] wReportC1
      (by decide)⟩

/-! ### Claim C10 -/

/-- C10: for every report and form payload, the parser returns exactly one
decision per report line, in report line order, each carrying that line's
id (absent form keys yield empty-string status and comment); consequently
both guards of the missing-decision branch in
`apply_line_review_decisions` pass — `missing_lines` is empty and the
per-line lookup always succeeds — so that branch is unreachable on
parser-produced decisions. -/
theorem C10_parser_covers_all_lines (report : ExpenseReport)
    (form : String → Option String) :
    (parse_line_review_form_data report form).length = report.lines.length
    ∧ (∀ (i : Nat) (l : ExpenseLine), report.lines[i]? = some l →
        (parse_line_review_form_data report form)[i]? = some
          { line_id := l.id
            status := pyStrip ((form ("line_status_" ++ intStr l.id)).getD "")
            comment := pyStrip ((form ("line_comment_" ++ intStr l.id)).getD "") })
    ∧ missingLineIds report (parse_line_review_form_data report form) = []
    ∧ ∀ l ∈ report.lines,
        (decisionMapGet (parse_line_review_form_data report form) l.id).isSome = true := by
  have hsome : ∀ l ∈ report.lines,
      (decisionMapGet (parse_line_review_form_data report form) l.id).isSome = true := by
    intro l hl
    have hmem : (⟨l.id,
        pyStrip ((form ("line_status_" ++ intStr l.id)).getD ""),
        pyStrip ((form ("line_comment_" ++ intStr l.id)).getD "")⟩ : ExpenseLineDecision)
        ∈ parse_line_review_form_data report form :=
      List.mem_map_of_mem _ hl
    exact decisionMapGet_isSome_of_mem hmem
  refine ⟨List.length_map _ _, ?_, missingLineIds_eq_nil hsome, hsome⟩
  intro i l hli
  simp only [parse_line_review_form_data, List.getElem?_map, hli]
  rfl

/-- C10 witness: the theorem applied at the concrete two-line report and a
form payload that carries fields for line 1 only. -/
theorem C10_witness :
    (parse_line_review_form_data wReport2Pending wForm).length
        = wReport2Pending.lines.length
    ∧ missingLineIds wReport2Pending
        (parse_line_review_form_data wReport2Pending wForm) = [] :=
  ⟨(C10_parser_covers_all_lines wReport2Pending wForm).1,
    (C10_parser_covers_all_lines wReport2Pending wForm).2.2.1⟩

end Expenses
